import Mathlib

/-!
Verification of the discord-scheduler repository (src/bot.py, src/web_app.py)
against its specification.  Calendar dates are modelled as integers (day
numbers); the ISO date strings the code stores compare exactly like these day
numbers.  The Supabase store is modelled as an explicit record of the two
tables, tasks and reminder_dates; each Supabase call in the source becomes one
step on that record.  Fallible calls (inserts that may raise) take an explicit
failure flag, since the exception path of the source is part of what is
verified.
-/

namespace Scheduler

/-- Row of the tasks table: schema tasks(id, user_id, task, due_date), as
inserted by bot.py and web_app.py. -/
structure Task where
  id : Nat
  user_id : String
  task : String
  due_date : Int
deriving DecidableEq, Repr

/-- Row of the reminder_dates table: reminder_dates(task_id, reminder_date). -/
structure ReminderDate where
  task_id : Nat
  reminder_date : Int
deriving DecidableEq, Repr

/-- The persistent store: the two tables plus the next serial id the backend
will assign to an inserted task row. -/
structure Store where
  tasks : List Task
  reminder_dates : List ReminderDate
  next_id : Nat
deriving DecidableEq, Repr

/-- One notification attempt made by the reminder loop: recipient, the task it
is about, and whether the send succeeded. -/
structure Attempt where
  user_id : String
  task_id : Nat
  delivered : Bool
deriving DecidableEq, Repr

/-- Round half to even of the exact rational n / d for d > 0, which is what
the round builtin of Python computes on the value interval * i in bot.py line
283 and web_app.py lines 80 and 452 (the sources compute with machine floats;
the value is modelled exactly). -/
def roundHalfEven (n d : Int) : Int :=
  if 2 * (n % d) < d then n / d
  else if d < 2 * (n % d) then n / d + 1
  else if (n / d) % 2 = 0 then n / d else n / d + 1

/-- Reminder schedule of bot.py lines 278-285 and web_app.py lines 73-85:
days_left = due_date - today, interval = days_left / (count + 1), and for i in
1..count the i-th reminder is today + round(interval * i).  The list below is
0-indexed, so entry i uses the multiplier i + 1. -/
def computeReminderSchedule (today due_date : Int) (count : Nat) : List Int :=
  (List.range count).map
    (fun (i : Nat) =>
      today + roundHalfEven ((due_date - today) * ((i : Int) + 1)) ((count : Int) + 1))

theorem roundHalfEven_eq_or (n d : Int) :
    roundHalfEven n d = n / d ∨ roundHalfEven n d = n / d + 1 := by
  unfold roundHalfEven
  split_ifs <;> simp

theorem roundHalfEven_nonneg (n d : Int) (hn : 0 ≤ n) (hd : 0 < d) :
    0 ≤ roundHalfEven n d := by
  have h := Int.ediv_nonneg hn (le_of_lt hd)
  rcases roundHalfEven_eq_or n d with h1 | h1 <;> omega

theorem roundHalfEven_le_of_le_mul (n d m : Int) (hd : 0 < d) (h : n ≤ m * d) :
    roundHalfEven n d ≤ m := by
  have hq : n / d ≤ m := by
    have := Int.ediv_le_ediv hd h
    rwa [Int.mul_ediv_cancel m (by omega)] at this
  rcases lt_or_eq_of_le hq with hlt | heq
  · rcases roundHalfEven_eq_or n d with h1 | h1 <;> omega
  · have hmod : n % d = 0 := by
      have h2 := Int.ediv_add_emod n d
      have h3 := Int.emod_nonneg n (show d ≠ 0 by omega)
      rw [heq] at h2
      nlinarith
    unfold roundHalfEven
    rw [hmod]
    simp [heq, hd]

theorem roundHalfEven_mono (n m d : Int) (hd : 0 < d) (h : n ≤ m) :
    roundHalfEven n d ≤ roundHalfEven m d := by
  have hq : n / d ≤ m / d := Int.ediv_le_ediv hd h
  rcases lt_or_eq_of_le hq with hlt | heq
  · rcases roundHalfEven_eq_or n d with h1 | h1 <;>
      rcases roundHalfEven_eq_or m d with h2 | h2 <;> omega
  · have h1 := Int.ediv_add_emod n d
    have h2 := Int.ediv_add_emod m d
    have h3 := Int.emod_nonneg n (show d ≠ 0 by omega)
    have h4 := Int.emod_lt_of_pos n hd
    have h5 := Int.emod_nonneg m (show d ≠ 0 by omega)
    have h6 := Int.emod_lt_of_pos m hd
    have hr : n % d ≤ m % d := by nlinarith
    unfold roundHalfEven
    rw [← heq]
    split_ifs <;> omega

theorem computeReminderSchedule_length (today due : Int) (count : Nat) :
    (computeReminderSchedule today due count).length = count := by
  simp [computeReminderSchedule]

/-- C1: for every count in 1..10 and every pair of dates with due_date at or
after today, the schedule computed by bot.py lines 278-285 (and web_app.py
lines 73-85) has exactly count entries, each between today and due_date
inclusive, in non-decreasing order, and its i-th entry (0-indexed) is
today + round((due_date - today) * (i + 1) / (count + 1)) with round half to
even, i.e. today + round(interval * (i + 1)) for interval =
(due_date - today) / (count + 1). -/
theorem computeReminderSchedule_spec (today due : Int) (count : Nat)
    (h1 : 1 ≤ count) (h2 : count ≤ 10) (hd : today ≤ due) :
    (computeReminderSchedule today due count).length = count ∧
    (∀ x ∈ computeReminderSchedule today due count, today ≤ x ∧ x ≤ due) ∧
    List.Sorted (fun a b => a ≤ b) (computeReminderSchedule today due count) ∧
    (∀ i : Nat, i < count →
      (computeReminderSchedule today due count)[i]? =
        some (today + roundHalfEven ((due - today) * ((i : Int) + 1)) ((count : Int) + 1))) := by
  have hD : (0 : Int) ≤ due - today := by omega
  have hdpos : (0 : Int) < (count : Int) + 1 := by positivity
  refine ⟨computeReminderSchedule_length today due count, ?_, ?_, ?_⟩
  · intro x hx
    simp only [computeReminderSchedule, List.mem_map, List.mem_range] at hx
    obtain ⟨i, hi, rfl⟩ := hx
    constructor
    · have := roundHalfEven_nonneg ((due - today) * ((i : Int) + 1)) ((count : Int) + 1)
        (by positivity) hdpos
      omega
    · have hle : (due - today) * ((i : Int) + 1) ≤ (due - today) * ((count : Int) + 1) := by
        have : ((i : Int) + 1) ≤ ((count : Int) + 1) := by exact_mod_cast by omega
        exact mul_le_mul_of_nonneg_left this hD
      have := roundHalfEven_le_of_le_mul ((due - today) * ((i : Int) + 1)) ((count : Int) + 1)
        (due - today) hdpos hle
      omega
  · unfold computeReminderSchedule
    refine List.Pairwise.map _ ?_ (List.pairwise_lt_range count)
    intro a b hab
    have hmul : (due - today) * ((a : Int) + 1) ≤ (due - today) * ((b : Int) + 1) := by
      have : ((a : Int) + 1) ≤ ((b : Int) + 1) := by exact_mod_cast by omega
      exact mul_le_mul_of_nonneg_left this hD
    have := roundHalfEven_mono ((due - today) * ((a : Int) + 1))
      ((due - today) * ((b : Int) + 1)) ((count : Int) + 1) hdpos hmul
    omega
  · intro i hi
    simp [computeReminderSchedule, List.getElem?_map, List.getElem?_range hi]

theorem computeReminderSchedule_spec_witness :
    (1 ≤ 3 ∧ 3 ≤ 10 ∧ (0 : Int) ≤ 30) ∧
    ((computeReminderSchedule 0 30 3).length = 3 ∧
    (∀ x ∈ computeReminderSchedule 0 30 3, (0 : Int) ≤ x ∧ x ≤ 30) ∧
    List.Sorted (fun a b => a ≤ b) (computeReminderSchedule 0 30 3) ∧
    (∀ i : Nat, i < 3 →
      (computeReminderSchedule 0 30 3)[i]? =
        some (0 + roundHalfEven ((30 - 0) * ((i : Int) + 1)) ((3 : Nat) + 1)))) :=
  ⟨by norm_num, computeReminderSchedule_spec 0 30 3 (by norm_num) (by norm_num) (by norm_num)⟩

/-- Validation of the reminder count in the !schedule handler, bot.py lines
275-276: a ValueError is raised unless 1 <= num_reminders <= 10. -/
def botScheduleCountOk (n : Int) : Bool := decide (1 ≤ n ∧ n ≤ 10)

/-- Validation of the reminder count in the dashboard POST handler, web_app.py
lines 147-151: rejected when below 1 or above 10. -/
def dashboardCountOk (n : Int) : Bool := decide (¬ n < 1 ∧ ¬ n > 10)

/-- Validation of the reminder count in the edit_task POST handler, web_app.py
lines 399-401: only the lower bound is checked; there is no upper cap. -/
def editCountOk (n : Int) : Bool := decide (¬ n < 1)

/-- Helper function add_task_with_reminders of bot.py lines 67-97 (web_app.py
lines 52-95 is the same flow with the schedule computed inline): insert the
task row in one statement, then batch-insert all reminder rows in a second
statement.  Either statement may raise; an exception is logged and re-raised,
and nothing already inserted is rolled back.  The two flags say whether the
task insert and the reminder insert raise.  Result: success flag and the store
as left behind. -/
def add_task_with_reminders (s : Store) (uid task_name : String) (due : Int)
    (reminder_dates : List Int) (failTaskInsert failReminderInsert : Bool) :
    Bool × Store :=
  if failTaskInsert then (false, s)
  else
    let t : Task := ⟨s.next_id, uid, task_name, due⟩
    let s1 : Store := ⟨s.tasks ++ [t], s.reminder_dates, s.next_id + 1⟩
    if reminder_dates.isEmpty then (true, s1)
    else if failReminderInsert then (false, s1)
    else (true, ⟨s1.tasks, s1.reminder_dates ++ reminder_dates.map (fun d => ⟨t.id, d⟩),
                 s1.next_id⟩)

/-- The !schedule command, bot.py lines 263-292: validate the count, compute
the schedule, then call add_task_with_reminders. -/
def bot_schedule (s : Store) (uid task_name : String) (due today : Int) (n : Int)
    (failTaskInsert failReminderInsert : Bool) : Bool × Store :=
  if botScheduleCountOk n then
    add_task_with_reminders s uid task_name due
      (computeReminderSchedule today due n.toNat) failTaskInsert failReminderInsert
  else (false, s)

/-- The dashboard POST handler, web_app.py lines 140-160: validate the count,
then call add_task_with_reminders, which computes the schedule inline. -/
def dashboard_post (s : Store) (uid task_name : String) (due today : Int) (n : Int)
    (failTaskInsert failReminderInsert : Bool) : Bool × Store :=
  if dashboardCountOk n then
    add_task_with_reminders s uid task_name due
      (computeReminderSchedule today due n.toNat) failTaskInsert failReminderInsert
  else (false, s)

/-- Which of the three database statements of the edit_task POST handler
raises, if any. -/
inductive StepFail where
  | none
  | atUpdate
  | atDeleteOld
  | atInsertNew
deriving DecidableEq, Repr

/-- The edit_task POST handler, web_app.py lines 389-487: validate the count
(lower bound only, lines 399-401; date parsing is abstracted since dates are
already day numbers here), then run three separate statements: update the task
row where id and user_id match (lines 437-440), delete all reminder rows of
task_id (line 443), insert the recomputed schedule (lines 446-460).  Any
statement may raise; the exception is caught and an error page rendered, with
the effects of the statements already executed left in place.  Result: true
with the final store on success, false with the store as left behind on
validation failure or exception. -/
def edit_task (s : Store) (task_id : Nat) (uid new_task : String)
    (new_due today : Int) (new_reminders : Int) (fail : StepFail) : Bool × Store :=
  if editCountOk new_reminders then
    if fail = StepFail.atUpdate then (false, s)
    else
      let s1 : Store :=
        ⟨s.tasks.map (fun t =>
            if t.id = task_id ∧ t.user_id = uid then ⟨t.id, t.user_id, new_task, new_due⟩ else t),
         s.reminder_dates, s.next_id⟩
      if fail = StepFail.atDeleteOld then (false, s1)
      else
        let s2 : Store :=
          ⟨s1.tasks, s1.reminder_dates.filter (fun r => decide (¬ r.task_id = task_id)),
           s1.next_id⟩
        if fail = StepFail.atInsertNew then (false, s2)
        else
          (true, ⟨s2.tasks,
                  s2.reminder_dates ++
                    (computeReminderSchedule today new_due new_reminders.toNat).map
                      (fun d => ⟨task_id, d⟩),
                  s2.next_id⟩)
  else (false, s)

/-- C3: the chat command and the dashboard form reject a reminder count of 11
with no state change, but the edit form accepts 11: the edit_task handler
checks only the lower bound, so an edit request with count 11 succeeds and
persists 11 reminder rows, contradicting the claim that every path fails with
InvalidInput for counts outside 1..10. -/
theorem editPathAcceptsCountEleven :
    botScheduleCountOk 11 = false ∧
    dashboardCountOk 11 = false ∧
    bot_schedule ⟨[], [], 1⟩ "u" "T" 30 0 11 false false = (false, ⟨[], [], 1⟩) ∧
    dashboard_post ⟨[], [], 1⟩ "u" "T" 30 0 11 false false = (false, ⟨[], [], 1⟩) ∧
    editCountOk 11 = true ∧
    (edit_task ⟨[⟨1, "u", "T", 30⟩], [], 2⟩ 1 "u" "T" 30 0 11 StepFail.none).1 = true ∧
    (edit_task ⟨[⟨1, "u", "T", 30⟩], [], 2⟩ 1 "u" "T" 30 0 11
      StepFail.none).2.reminder_dates.length = 11 := by
  decide

/-- C4 counterexample: with an empty store, a create whose reminder batch
insert fails reports failure, yet the task row stays persisted with no
reminder rows — there is no rollback, contrary to the claim. -/
theorem add_task_rollback_counterexample :
    (add_task_with_reminders ⟨[], [], 1⟩ "u" "T" 10 [3, 6] false true).1 = false ∧
    (add_task_with_reminders ⟨[], [], 1⟩ "u" "T" 10 [3, 6] false true).2.tasks =
      [⟨1, "u", "T", 10⟩] ∧
    (add_task_with_reminders ⟨[], [], 1⟩ "u" "T" 10 [3, 6] false true).2.reminder_dates =
      [] := by
  decide

/-- C4 amended: when the reminder batch insert fails during task creation, the
operation fails (the exception is re-raised), but the already inserted task
row remains persisted and no reminder row exists for it — the store is left
with the task appended and the reminder table unchanged. -/
theorem add_task_no_rollback (s : Store) (uid nm : String) (due : Int)
    (dates : List Int) (h : dates ≠ []) :
    add_task_with_reminders s uid nm due dates false true =
      (false, ⟨s.tasks ++ [⟨s.next_id, uid, nm, due⟩], s.reminder_dates, s.next_id + 1⟩) := by
  simp [add_task_with_reminders, List.isEmpty_iff, h]

theorem add_task_no_rollback_witness :
    ([3, 6] ≠ ([] : List Int)) ∧
    add_task_with_reminders ⟨[], [], 1⟩ "u" "T" 10 [3, 6] false true =
      (false, ⟨[⟨1, "u", "T", 10⟩], [], 2⟩) :=
  ⟨by decide, add_task_no_rollback ⟨[], [], 1⟩ "u" "T" 10 [3, 6] (by decide)⟩

/-- C5 counterexample: a store holding one task with two reminder rows, edited
with a failure at the reminder re-insert step: the handler reports an error,
yet the store is not the prior state — the task row is already updated and all
reminder rows are gone, so the update is not transactional. -/
theorem edit_task_transactional_counterexample :
    (edit_task ⟨[⟨1, "u", "Old", 10⟩], [⟨1, 3⟩, ⟨1, 6⟩], 2⟩ 1 "u" "New" 40 0 3
        StepFail.atInsertNew).1 = false ∧
    (edit_task ⟨[⟨1, "u", "Old", 10⟩], [⟨1, 3⟩, ⟨1, 6⟩], 2⟩ 1 "u" "New" 40 0 3
        StepFail.atInsertNew).2 ≠ ⟨[⟨1, "u", "Old", 10⟩], [⟨1, 3⟩, ⟨1, 6⟩], 2⟩ ∧
    (edit_task ⟨[⟨1, "u", "Old", 10⟩], [⟨1, 3⟩, ⟨1, 6⟩], 2⟩ 1 "u" "New" 40 0 3
        StepFail.atInsertNew).2.tasks = [⟨1, "u", "New", 40⟩] ∧
    (edit_task ⟨[⟨1, "u", "Old", 10⟩], [⟨1, 3⟩, ⟨1, 6⟩], 2⟩ 1 "u" "New" 40 0 3
        StepFail.atInsertNew).2.reminder_dates = [] := by
  decide

/-- C5 amended: when the reminder re-insert step of an edit fails, the handler
reports an error, but the effects of the earlier statements persist: every
surviving reminder row is an old row of a different task (the edited task has
none left), and the task row matching id and owner is already rewritten with
the new title and due date. -/
theorem edit_task_fail_leaves_partial_state (s : Store) (task_id : Nat)
    (uid nm : String) (nd today n : Int) (h : 1 ≤ n) :
    (edit_task s task_id uid nm nd today n StepFail.atInsertNew).1 = false ∧
    (∀ r ∈ (edit_task s task_id uid nm nd today n StepFail.atInsertNew).2.reminder_dates,
        r ∈ s.reminder_dates ∧ r.task_id ≠ task_id) ∧
    (∀ t ∈ s.tasks, t.id = task_id → t.user_id = uid →
        (⟨t.id, t.user_id, nm, nd⟩ : Task) ∈
          (edit_task s task_id uid nm nd today n StepFail.atInsertNew).2.tasks) := by
  have hok : editCountOk n = true := by
    simp only [editCountOk, decide_eq_true_eq]
    omega
  refine ⟨?_, ?_, ?_⟩
  · simp [edit_task, hok]
  · intro r hr
    simp only [edit_task, hok, if_true] at hr
    simp only [reduceCtorEq, if_false, List.mem_filter, decide_eq_true_eq] at hr
    exact ⟨hr.1, hr.2⟩
  · intro t ht hid huid
    simp only [edit_task, hok, if_true]
    simp only [reduceCtorEq, if_false, List.mem_map]
    exact ⟨t, ht, by simp [hid, huid]⟩

theorem edit_task_fail_leaves_partial_state_witness :
    (1 ≤ (3 : Int)) ∧
    ((edit_task ⟨[⟨1, "u", "Old", 10⟩], [⟨1, 3⟩, ⟨1, 6⟩], 2⟩ 1 "u" "New" 40 0 3
        StepFail.atInsertNew).1 = false ∧
    (∀ r ∈ (edit_task ⟨[⟨1, "u", "Old", 10⟩], [⟨1, 3⟩, ⟨1, 6⟩], 2⟩ 1 "u" "New" 40 0 3
        StepFail.atInsertNew).2.reminder_dates,
        r ∈ (⟨[⟨1, "u", "Old", 10⟩], [⟨1, 3⟩, ⟨1, 6⟩], 2⟩ : Store).reminder_dates ∧
          r.task_id ≠ 1) ∧
    (∀ t ∈ (⟨[⟨1, "u", "Old", 10⟩], [⟨1, 3⟩, ⟨1, 6⟩], 2⟩ : Store).tasks,
        t.id = 1 → t.user_id = "u" →
        (⟨t.id, t.user_id, "New", 40⟩ : Task) ∈
          (edit_task ⟨[⟨1, "u", "Old", 10⟩], [⟨1, 3⟩, ⟨1, 6⟩], 2⟩ 1 "u" "New" 40 0 3
            StepFail.atInsertNew).2.tasks)) :=
  ⟨by decide,
   edit_task_fail_leaves_partial_state ⟨[⟨1, "u", "Old", 10⟩], [⟨1, 3⟩, ⟨1, 6⟩], 2⟩
     1 "u" "New" 40 0 3 (by decide)⟩

/-- Delete from the tasks table where id matches, as issued by the reminder
loop (bot.py line 164).  Matching reminder rows are removed with the task.
Modelled from the spec: the reminder_dates table definition with its on-delete
cascade is not under src (only a comment at web_app.py line 370 and spec
section 3 state it); the cascade fires only when a task row is actually
deleted. -/
def deleteTaskById (s : Store) (tid : Nat) : Store :=
  if s.tasks.any (fun t => decide (t.id = tid)) then
    ⟨s.tasks.filter (fun t => decide (¬ t.id = tid)),
     s.reminder_dates.filter (fun r => decide (¬ r.task_id = tid)), s.next_id⟩
  else s

/-- The delete_task route of web_app.py lines 363-381: delete from tasks where
id and the session user id both match; HTTP 200 when a row was deleted, 404
when none matched.  Reminder rows of deleted tasks are removed by the schema
cascade (modelled from the spec, as for deleteTaskById). -/
def delete_task (s : Store) (tid : Nat) (uid : String) : Nat × Store :=
  let deleted := s.tasks.filter (fun t => decide (t.id = tid ∧ t.user_id = uid))
  if deleted.isEmpty then (404, s)
  else
    (200, ⟨s.tasks.filter (fun t => decide (¬ (t.id = tid ∧ t.user_id = uid))),
           s.reminder_dates.filter (fun r => deleted.all (fun t => decide (¬ t.id = r.task_id))),
           s.next_id⟩)

/-- The !remove command of bot.py lines 235-245: one delete from tasks
filtered on exact title and author id; the success message is sent iff
result.data is nonempty, i.e. iff at least one row was deleted.  Reminder rows
of deleted tasks are removed by the schema cascade (modelled from the spec, as
for deleteTaskById). -/
def remove_command (s : Store) (uid title : String) : Bool × Store :=
  let deleted := s.tasks.filter (fun t => decide (t.task = title ∧ t.user_id = uid))
  (!deleted.isEmpty,
   ⟨s.tasks.filter (fun t => decide (¬ (t.task = title ∧ t.user_id = uid))),
    s.reminder_dates.filter (fun r => deleted.all (fun t => decide (¬ t.id = r.task_id))),
    s.next_id⟩)

theorem mem_deleteTaskById_tasks (s : Store) (tid : Nat) (u : Task) :
    u ∈ (deleteTaskById s tid).tasks ↔ u ∈ s.tasks ∧ u.id ≠ tid := by
  unfold deleteTaskById
  by_cases h : s.tasks.any (fun t => decide (t.id = tid)) = true
  · simp [h, List.mem_filter]
  · simp only [h, if_false]
    simp only [List.any_eq_true, decide_eq_true_eq, not_exists] at h
    push_neg at h
    constructor
    · intro hu
      exact ⟨hu, h u hu⟩
    · intro hu
      exact hu.1

theorem mem_deleteTaskById_reminders (s : Store) (tid : Nat) (r : ReminderDate) :
    r ∈ (deleteTaskById s tid).reminder_dates → r ∈ s.reminder_dates := by
  unfold deleteTaskById
  by_cases h : s.tasks.any (fun t => decide (t.id = tid)) = true
  · simp [h, List.mem_filter]
    intro h1 _
    exact h1
  · simp [h]

theorem deleteTaskById_next_id (s : Store) (tid : Nat) :
    (deleteTaskById s tid).next_id = s.next_id := by
  unfold deleteTaskById
  split_ifs <;> rfl

/-- C8: all three task-deletion paths cascade: after the web delete_task
route, after the !remove command, and after the reminder loop delete, no
surviving reminder row references a task row that the operation deleted. -/
theorem task_deletion_cascades (s : Store) (tid : Nat) (uid title : String) :
    (∀ r ∈ (delete_task s tid uid).2.reminder_dates,
        ∀ t ∈ s.tasks, t.id = tid → t.user_id = uid → ¬ r.task_id = t.id) ∧
    (∀ r ∈ (remove_command s uid title).2.reminder_dates,
        ∀ t ∈ s.tasks, t.task = title → t.user_id = uid → ¬ r.task_id = t.id) ∧
    (∀ r ∈ (deleteTaskById s tid).reminder_dates,
        ∀ t ∈ s.tasks, t.id = tid → ¬ r.task_id = t.id) := by
  refine ⟨?_, ?_, ?_⟩
  · intro r hr t ht hid huid
    unfold delete_task at hr
    by_cases hdel : (s.tasks.filter (fun t => decide (t.id = tid ∧ t.user_id = uid))).isEmpty
    · exfalso
      rw [List.isEmpty_iff, List.filter_eq_nil_iff] at hdel
      exact hdel t ht (by simp [hid, huid])
    · simp only [hdel, Bool.false_eq_true, if_false, List.mem_filter, List.all_eq_true,
        decide_eq_true_eq] at hr
      have := hr.2 t ⟨ht, hid, huid⟩
      omega
  · intro r hr t ht htitle huid
    unfold remove_command at hr
    simp only [List.mem_filter, List.all_eq_true, decide_eq_true_eq] at hr
    have := hr.2 t ⟨ht, htitle, huid⟩
    omega
  · intro r hr t ht hid
    unfold deleteTaskById at hr
    have hany : s.tasks.any (fun t => decide (t.id = tid)) = true := by
      rw [List.any_eq_true]
      exact ⟨t, ht, by simp [hid]⟩
    simp only [hany, if_true, List.mem_filter, decide_eq_true_eq] at hr
    omega

theorem task_deletion_cascades_witness :
    (∀ r ∈ (delete_task ⟨[⟨1, "u", "T", 9⟩], [⟨1, 4⟩], 2⟩ 1 "u").2.reminder_dates,
        ∀ t ∈ (⟨[⟨1, "u", "T", 9⟩], [⟨1, 4⟩], 2⟩ : Store).tasks,
          t.id = 1 → t.user_id = "u" → ¬ r.task_id = t.id) ∧
    (∀ r ∈ (remove_command ⟨[⟨1, "u", "T", 9⟩], [⟨1, 4⟩], 2⟩ "u" "T").2.reminder_dates,
        ∀ t ∈ (⟨[⟨1, "u", "T", 9⟩], [⟨1, 4⟩], 2⟩ : Store).tasks,
          t.task = "T" → t.user_id = "u" → ¬ r.task_id = t.id) ∧
    (∀ r ∈ (deleteTaskById ⟨[⟨1, "u", "T", 9⟩], [⟨1, 4⟩], 2⟩ 1).reminder_dates,
        ∀ t ∈ (⟨[⟨1, "u", "T", 9⟩], [⟨1, 4⟩], 2⟩ : Store).tasks,
          t.id = 1 → ¬ r.task_id = t.id) :=
  task_deletion_cascades ⟨[⟨1, "u", "T", 9⟩], [⟨1, 4⟩], 2⟩ 1 "u" "T"

/-- C9: the !remove command deletes every task of the requesting owner whose
title equals the given string exactly — all duplicates in one call — keeps
every other task, and reports success iff at least one row was deleted. -/
theorem remove_command_spec (s : Store) (uid title : String) :
    ((remove_command s uid title).1 = true ↔
      ∃ t ∈ s.tasks, t.task = title ∧ t.user_id = uid) ∧
    (∀ t ∈ s.tasks, t.task = title → t.user_id = uid →
      t ∉ (remove_command s uid title).2.tasks) ∧
    (∀ t ∈ s.tasks, ¬ (t.task = title ∧ t.user_id = uid) →
      t ∈ (remove_command s uid title).2.tasks) := by
  refine ⟨?_, ?_, ?_⟩
  · unfold remove_command
    simp [List.isEmpty_iff, List.filter_eq_nil_iff]
  · intro t ht htitle huid hmem
    unfold remove_command at hmem
    simp only [List.mem_filter, decide_eq_true_eq] at hmem
    exact hmem.2 ⟨htitle, huid⟩
  · intro t ht hnot
    unfold remove_command
    simp only [List.mem_filter, decide_eq_true_eq]
    exact ⟨ht, hnot⟩

theorem remove_command_spec_witness :
    ((remove_command ⟨[⟨1, "u", "T", 9⟩, ⟨2, "u", "T", 12⟩, ⟨3, "u", "S", 5⟩], [], 4⟩
        "u" "T").1 = true ↔
      ∃ t ∈ (⟨[⟨1, "u", "T", 9⟩, ⟨2, "u", "T", 12⟩, ⟨3, "u", "S", 5⟩], [], 4⟩ : Store).tasks,
        t.task = "T" ∧ t.user_id = "u") ∧
    (∀ t ∈ (⟨[⟨1, "u", "T", 9⟩, ⟨2, "u", "T", 12⟩, ⟨3, "u", "S", 5⟩], [], 4⟩ : Store).tasks,
        t.task = "T" → t.user_id = "u" →
        t ∉ (remove_command ⟨[⟨1, "u", "T", 9⟩, ⟨2, "u", "T", 12⟩, ⟨3, "u", "S", 5⟩], [], 4⟩
          "u" "T").2.tasks) ∧
    (∀ t ∈ (⟨[⟨1, "u", "T", 9⟩, ⟨2, "u", "T", 12⟩, ⟨3, "u", "S", 5⟩], [], 4⟩ : Store).tasks,
        ¬ (t.task = "T" ∧ t.user_id = "u") →
        t ∈ (remove_command ⟨[⟨1, "u", "T", 9⟩, ⟨2, "u", "T", 12⟩, ⟨3, "u", "S", 5⟩], [], 4⟩
          "u" "T").2.tasks) :=
  remove_command_spec ⟨[⟨1, "u", "T", 9⟩, ⟨2, "u", "T", 12⟩, ⟨3, "u", "S", 5⟩], [], 4⟩ "u" "T"

/-- C10: the web delete route removes a task only when both the task id and
the session user id match a stored row; when the task does not exist or
belongs to a different owner it answers 404 and leaves the store unchanged. -/
theorem delete_task_owner_guard (s : Store) (tid : Nat) (uid : String)
    (h : ∀ t ∈ s.tasks, t.id = tid → t.user_id ≠ uid) :
    delete_task s tid uid = (404, s) := by
  unfold delete_task
  have hempty : (s.tasks.filter (fun t => decide (t.id = tid ∧ t.user_id = uid))).isEmpty := by
    rw [List.isEmpty_iff, List.filter_eq_nil_iff]
    intro t ht
    simp only [decide_eq_true_eq, not_and]
    intro hid
    exact h t ht hid
  simp only [hempty, if_true]

theorem delete_task_owner_guard_witness :
    (∀ t ∈ (⟨[⟨1, "alice", "T", 9⟩], [⟨1, 4⟩], 2⟩ : Store).tasks,
        t.id = 1 → t.user_id ≠ "bob") ∧
    delete_task ⟨[⟨1, "alice", "T", 9⟩], [⟨1, 4⟩], 2⟩ 1 "bob" =
      (404, ⟨[⟨1, "alice", "T", 9⟩], [⟨1, 4⟩], 2⟩) :=
  ⟨by decide, delete_task_owner_guard ⟨[⟨1, "alice", "T", 9⟩], [⟨1, 4⟩], 2⟩ 1 "bob" (by decide)⟩

/-- Query of bot.py lines 109-120: tasks inner-joined with reminder_dates on
reminder_date equal to today, giving the tasks that have a reminder due
today. -/
def fetch_todays_reminders (s : Store) (today : Int) : List Task :=
  s.tasks.filter (fun t =>
    s.reminder_dates.any (fun r => decide (r.task_id = t.id ∧ r.reminder_date = today)))

/-- Query of bot.py lines 122-129: tasks whose due_date is less than or equal
to today. -/
def fetch_past_due_tasks (s : Store) (today : Int) : List Task :=
  s.tasks.filter (fun t => decide (t.due_date ≤ today))

/-- Query of bot.py lines 131-142: tasks inner-joined with reminder_dates on
reminder_date strictly before today, giving the tasks that have a stale
reminder. -/
def fetch_past_due_reminders (s : Store) (today : Int) : List Task :=
  s.tasks.filter (fun t =>
    s.reminder_dates.any (fun r => decide (r.task_id = t.id ∧ r.reminder_date < today)))

/-- Phase one of the cycle, process_past_due_tasks of bot.py lines 144-166:
for each fetched task, attempt one direct-message notification (the attempt is
made whether or not delivery succeeds; a failure is only logged), then delete
the task row.  sendOk says for each task id whether the send succeeds.
Returns the notification attempts in order together with the store. -/
def process_past_due_tasks : Store → List Task → (Nat → Bool) → List Attempt × Store
  | s, [], _ => ([], s)
  | s, t :: rest, sendOk =>
    let s1 := deleteTaskById s t.id
    let p := process_past_due_tasks s1 rest sendOk
    (⟨t.user_id, t.id, sendOk t.id⟩ :: p.1, p.2)

/-- Phase two of the cycle, process_todays_reminders of bot.py lines 168-190:
for each fetched task, attempt one notification, then delete the reminder rows
of that task dated today (the task row itself stays). -/
def process_todays_reminders : Store → List Task → Int → (Nat → Bool) → List Attempt × Store
  | s, [], _, _ => ([], s)
  | s, t :: rest, today, sendOk =>
    let s1 : Store :=
      ⟨s.tasks,
       s.reminder_dates.filter (fun r => decide (¬ (r.task_id = t.id ∧ r.reminder_date = today))),
       s.next_id⟩
    let p := process_todays_reminders s1 rest today sendOk
    (⟨t.user_id, t.id, sendOk t.id⟩ :: p.1, p.2)

/-- Phase three of the cycle, cleanup_past_due_reminders of bot.py lines
192-199: for each fetched task, delete its reminder rows dated strictly before
today; no notification is attempted. -/
def cleanup_past_due_reminders : Store → List Task → Int → Store
  | s, [], _ => s
  | s, t :: rest, today =>
    cleanup_past_due_reminders
      ⟨s.tasks,
       s.reminder_dates.filter (fun r => decide (¬ (r.task_id = t.id ∧ r.reminder_date < today))),
       s.next_id⟩
      rest today

/-- One pass of reminder_loop, bot.py lines 201-218: run the three queries
against the current store, then the three phases in order.  Returns the
past-due-task alerts, the reminder notifications, and the resulting store. -/
def reminder_cycle (s : Store) (today : Int) (sendOk : Nat → Bool) :
    (List Attempt × List Attempt) × Store :=
  let reminders := fetch_todays_reminders s today
  let past_due_tasks := fetch_past_due_tasks s today
  let past_due_reminders := fetch_past_due_reminders s today
  let p1 := process_past_due_tasks s past_due_tasks sendOk
  let p2 := process_todays_reminders p1.2 reminders today sendOk
  let s3 := cleanup_past_due_reminders p2.2 past_due_reminders today
  ((p1.1, p2.1), s3)

theorem process_past_due_tasks_attempts (s : Store) (l : List Task) (sendOk : Nat → Bool) :
    (process_past_due_tasks s l sendOk).1 =
      l.map (fun t => ⟨t.user_id, t.id, sendOk t.id⟩) := by
  induction l generalizing s with
  | nil => rfl
  | cons t rest ih => simp [process_past_due_tasks, ih]

theorem mem_process_past_due_tasks_tasks (s : Store) (l : List Task) (sendOk : Nat → Bool)
    (u : Task) :
    u ∈ (process_past_due_tasks s l sendOk).2.tasks ↔
      u ∈ s.tasks ∧ ∀ t ∈ l, u.id ≠ t.id := by
  induction l generalizing s with
  | nil => simp [process_past_due_tasks]
  | cons t rest ih =>
    simp only [process_past_due_tasks, ih, mem_deleteTaskById_tasks, List.mem_cons]
    constructor
    · rintro ⟨⟨hu, hne⟩, hrest⟩
      refine ⟨hu, ?_⟩
      rintro t' (rfl | ht')
      · exact hne
      · exact hrest t' ht'
    · rintro ⟨hu, hall⟩
      exact ⟨⟨hu, hall t (Or.inl rfl)⟩, fun t' ht' => hall t' (Or.inr ht')⟩

theorem mem_process_past_due_tasks_reminders (s : Store) (l : List Task)
    (sendOk : Nat → Bool) (r : ReminderDate) :
    r ∈ (process_past_due_tasks s l sendOk).2.reminder_dates → r ∈ s.reminder_dates := by
  induction l generalizing s with
  | nil => simp [process_past_due_tasks]
  | cons t rest ih =>
    intro hr
    exact mem_deleteTaskById_reminders s t.id r (ih (deleteTaskById s t.id) hr)

theorem process_todays_reminders_attempts (s : Store) (l : List Task) (today : Int)
    (sendOk : Nat → Bool) :
    (process_todays_reminders s l today sendOk).1 =
      l.map (fun t => ⟨t.user_id, t.id, sendOk t.id⟩) := by
  induction l generalizing s with
  | nil => rfl
  | cons t rest ih => simp [process_todays_reminders, ih]

theorem process_todays_reminders_tasks (s : Store) (l : List Task) (today : Int)
    (sendOk : Nat → Bool) :
    (process_todays_reminders s l today sendOk).2.tasks = s.tasks := by
  induction l generalizing s with
  | nil => rfl
  | cons t rest ih => simp [process_todays_reminders, ih]

theorem mem_process_todays_reminders_reminders (s : Store) (l : List Task) (today : Int)
    (sendOk : Nat → Bool) (r : ReminderDate) :
    r ∈ (process_todays_reminders s l today sendOk).2.reminder_dates ↔
      r ∈ s.reminder_dates ∧ ∀ t ∈ l, ¬ (r.task_id = t.id ∧ r.reminder_date = today) := by
  induction l generalizing s with
  | nil => simp [process_todays_reminders]
  | cons t rest ih =>
    simp only [process_todays_reminders, ih, List.mem_filter, decide_eq_true_eq,
      List.mem_cons]
    constructor
    · rintro ⟨⟨hr, hne⟩, hrest⟩
      refine ⟨hr, ?_⟩
      rintro t' (rfl | ht')
      · exact hne
      · exact hrest t' ht'
    · rintro ⟨hr, hall⟩
      exact ⟨⟨hr, hall t (Or.inl rfl)⟩, fun t' ht' => hall t' (Or.inr ht')⟩

theorem cleanup_past_due_reminders_tasks (s : Store) (l : List Task) (today : Int) :
    (cleanup_past_due_reminders s l today).tasks = s.tasks := by
  induction l generalizing s with
  | nil => rfl
  | cons t rest ih => simp [cleanup_past_due_reminders, ih]

theorem mem_cleanup_past_due_reminders (s : Store) (l : List Task) (today : Int)
    (r : ReminderDate) :
    r ∈ (cleanup_past_due_reminders s l today).reminder_dates ↔
      r ∈ s.reminder_dates ∧ ∀ t ∈ l, ¬ (r.task_id = t.id ∧ r.reminder_date < today) := by
  induction l generalizing s with
  | nil => simp [cleanup_past_due_reminders]
  | cons t rest ih =>
    simp only [cleanup_past_due_reminders, ih, List.mem_filter, decide_eq_true_eq,
      List.mem_cons]
    constructor
    · rintro ⟨⟨hr, hne⟩, hrest⟩
      refine ⟨hr, ?_⟩
      rintro t' (rfl | ht')
      · exact hne
      · exact hrest t' ht'
    · rintro ⟨hr, hall⟩
      exact ⟨⟨hr, hall t (Or.inl rfl)⟩, fun t' ht' => hall t' (Or.inr ht')⟩

theorem filter_attempts_single (l : List Task) (sendOk : Nat → Bool)
    (hnd : (l.map Task.id).Nodup) (t : Task) (ht : t ∈ l) :
    ((l.map (fun u => (⟨u.user_id, u.id, sendOk u.id⟩ : Attempt))).filter
        (fun a => decide (a.task_id = t.id))) = [⟨t.user_id, t.id, sendOk t.id⟩] := by
  induction l with
  | nil => cases ht
  | cons a rest ih =>
    simp only [List.map_cons, List.nodup_cons, List.mem_map] at hnd
    rcases List.mem_cons.mp ht with rfl | htr
    · simp only [List.map_cons, List.filter_cons, decide_eq_true_eq]
      rw [if_pos trivial]
      congr 1
      rw [List.filter_eq_nil_iff]
      rintro x hx
      simp only [List.mem_map] at hx
      obtain ⟨u, hu, rfl⟩ := hx
      simp only [decide_eq_true_eq]
      intro heq
      exact hnd.1 ⟨u, hu, heq⟩
    · have hne : ¬ a.id = t.id := by
        intro heq
        exact hnd.1 ⟨t, htr, heq.symm⟩
      simp only [List.map_cons, List.filter_cons, decide_eq_true_eq]
      rw [if_neg hne]
      exact ih hnd.2 htr

/-- C2: in the past-due task phase of the cycle, every task whose due date has
passed (the query uses due_date at most today) gets exactly one notification
attempt addressed to its owner, and the task row is gone from the resulting
store whatever the delivery outcome sendOk reports. -/
theorem past_due_task_notified_once_then_deleted (s : Store) (today : Int)
    (sendOk : Nat → Bool) (hnd : (s.tasks.map Task.id).Nodup)
    (t : Task) (ht : t ∈ s.tasks) (hdue : t.due_date ≤ today) :
    ((process_past_due_tasks s (fetch_past_due_tasks s today) sendOk).1.filter
        (fun a => decide (a.task_id = t.id))) = [⟨t.user_id, t.id, sendOk t.id⟩] ∧
    (∀ u ∈ (process_past_due_tasks s (fetch_past_due_tasks s today) sendOk).2.tasks,
        u.id ≠ t.id) := by
  have htf : t ∈ fetch_past_due_tasks s today :=
    List.mem_filter.mpr ⟨ht, by simpa using hdue⟩
  constructor
  · rw [process_past_due_tasks_attempts]
    apply filter_attempts_single _ _ _ t htf
    exact ((List.filter_sublist s.tasks).map Task.id).nodup hnd
  · intro u hu
    rw [mem_process_past_due_tasks_tasks] at hu
    intro heq
    exact hu.2 t htf heq

theorem past_due_task_notified_once_then_deleted_witness :
    (((⟨[⟨1, "u", "T", 0⟩], [], 2⟩ : Store).tasks.map Task.id).Nodup ∧
      (⟨1, "u", "T", 0⟩ : Task) ∈ (⟨[⟨1, "u", "T", 0⟩], [], 2⟩ : Store).tasks ∧
      (⟨1, "u", "T", 0⟩ : Task).due_date ≤ (0 : Int)) ∧
    (((process_past_due_tasks (⟨[⟨1, "u", "T", 0⟩], [], 2⟩ : Store)
        (fetch_past_due_tasks ⟨[⟨1, "u", "T", 0⟩], [], 2⟩ 0) (fun _ => false)).1.filter
        (fun a => decide (a.task_id = (⟨1, "u", "T", 0⟩ : Task).id))) =
          [⟨"u", 1, false⟩] ∧
      (∀ u ∈ (process_past_due_tasks (⟨[⟨1, "u", "T", 0⟩], [], 2⟩ : Store)
          (fetch_past_due_tasks ⟨[⟨1, "u", "T", 0⟩], [], 2⟩ 0) (fun _ => false)).2.tasks,
        u.id ≠ (⟨1, "u", "T", 0⟩ : Task).id)) :=
  ⟨by refine ⟨by decide, by decide, by decide⟩,
   past_due_task_notified_once_then_deleted ⟨[⟨1, "u", "T", 0⟩], [], 2⟩ 0 (fun _ => false)
     (by decide) ⟨1, "u", "T", 0⟩ (by decide) (by decide)⟩

/-- C6: in a cycle over a store with no orphaned reminder rows, every stale
reminder (dated strictly before today) is gone from the resulting store, and
every notification of the reminder phase is justified by a reminder row dated
exactly today — no notify is triggered by a reminder date already in the
past. -/
theorem stale_reminders_deleted_without_notify (s : Store) (today : Int)
    (sendOk : Nat → Bool)
    (horph : ∀ r ∈ s.reminder_dates, ∃ t ∈ s.tasks, t.id = r.task_id) :
    (∀ r ∈ s.reminder_dates, r.reminder_date < today →
        r ∉ (reminder_cycle s today sendOk).2.reminder_dates) ∧
    (∀ a ∈ (reminder_cycle s today sendOk).1.2, ∃ r ∈ s.reminder_dates,
        r.task_id = a.task_id ∧ r.reminder_date = today) := by
  constructor
  · intro r hr hlt hmem
    simp only [reminder_cycle] at hmem
    rw [mem_cleanup_past_due_reminders] at hmem
    obtain ⟨t, ht, htid⟩ := horph r hr
    have htf : t ∈ fetch_past_due_reminders s today := by
      refine List.mem_filter.mpr ⟨ht, ?_⟩
      rw [List.any_eq_true]
      exact ⟨r, hr, by simp [htid.symm, hlt]⟩
    exact hmem.2 t htf ⟨htid.symm, hlt⟩
  · intro a ha
    simp only [reminder_cycle] at ha
    rw [process_todays_reminders_attempts] at ha
    simp only [List.mem_map] at ha
    obtain ⟨t, htf, rfl⟩ := ha
    have := List.mem_filter.mp htf
    rw [List.any_eq_true] at this
    obtain ⟨r, hr, hmatch⟩ := this.2
    simp only [decide_eq_true_eq] at hmatch
    exact ⟨r, hr, hmatch.1, hmatch.2⟩

theorem stale_reminders_deleted_without_notify_witness :
    (∀ r ∈ (⟨[⟨1, "u", "T", 5⟩], [⟨1, -1⟩], 2⟩ : Store).reminder_dates,
        ∃ t ∈ (⟨[⟨1, "u", "T", 5⟩], [⟨1, -1⟩], 2⟩ : Store).tasks, t.id = r.task_id) ∧
    ((∀ r ∈ (⟨[⟨1, "u", "T", 5⟩], [⟨1, -1⟩], 2⟩ : Store).reminder_dates,
        r.reminder_date < (0 : Int) →
        r ∉ (reminder_cycle ⟨[⟨1, "u", "T", 5⟩], [⟨1, -1⟩], 2⟩ 0
              (fun _ => true)).2.reminder_dates) ∧
     (∀ a ∈ (reminder_cycle ⟨[⟨1, "u", "T", 5⟩], [⟨1, -1⟩], 2⟩ 0 (fun _ => true)).1.2,
        ∃ r ∈ (⟨[⟨1, "u", "T", 5⟩], [⟨1, -1⟩], 2⟩ : Store).reminder_dates,
          r.task_id = a.task_id ∧ r.reminder_date = 0)) :=
  ⟨by decide,
   stale_reminders_deleted_without_notify ⟨[⟨1, "u", "T", 5⟩], [⟨1, -1⟩], 2⟩ 0
     (fun _ => true) (by decide)⟩

/-- C7: idempotence with no time advance: after one full cycle, a second cycle
at the same value of today finds all three query result sets empty, sends no
notification of either kind, and leaves the store exactly as the first cycle
left it. -/
theorem reminder_cycle_idempotent (s : Store) (today : Int)
    (sendOk sendOk2 : Nat → Bool) :
    fetch_todays_reminders (reminder_cycle s today sendOk).2 today = [] ∧
    fetch_past_due_tasks (reminder_cycle s today sendOk).2 today = [] ∧
    fetch_past_due_reminders (reminder_cycle s today sendOk).2 today = [] ∧
    reminder_cycle (reminder_cycle s today sendOk).2 today sendOk2 =
      (([], []), (reminder_cycle s today sendOk).2) := by
  have htasks : (reminder_cycle s today sendOk).2.tasks =
      (process_past_due_tasks s (fetch_past_due_tasks s today) sendOk).2.tasks := by
    simp only [reminder_cycle]
    rw [cleanup_past_due_reminders_tasks, process_todays_reminders_tasks]
  have h2 : fetch_past_due_tasks (reminder_cycle s today sendOk).2 today = [] := by
    unfold fetch_past_due_tasks
    rw [List.filter_eq_nil_iff]
    intro u hu
    rw [htasks, mem_process_past_due_tasks_tasks] at hu
    simp only [decide_eq_true_eq]
    intro hdue
    exact hu.2 u (List.mem_filter.mpr ⟨hu.1, by simpa using hdue⟩) rfl
  have hmem3 : ∀ r : ReminderDate, r ∈ (reminder_cycle s today sendOk).2.reminder_dates →
      r ∈ s.reminder_dates ∧
      (∀ t ∈ fetch_todays_reminders s today,
        ¬ (r.task_id = t.id ∧ r.reminder_date = today)) ∧
      (∀ t ∈ fetch_past_due_reminders s today,
        ¬ (r.task_id = t.id ∧ r.reminder_date < today)) := by
    intro r hmem
    simp only [reminder_cycle] at hmem
    rw [mem_cleanup_past_due_reminders] at hmem
    obtain ⟨hmem2, hall3⟩ := hmem
    rw [mem_process_todays_reminders_reminders] at hmem2
    exact ⟨mem_process_past_due_tasks_reminders _ _ _ _ hmem2.1, hmem2.2, hall3⟩
  have hsub : ∀ u : Task, u ∈ (reminder_cycle s today sendOk).2.tasks → u ∈ s.tasks := by
    intro u hu
    rw [htasks, mem_process_past_due_tasks_tasks] at hu
    exact hu.1
  have h1 : fetch_todays_reminders (reminder_cycle s today sendOk).2 today = [] := by
    unfold fetch_todays_reminders
    rw [List.filter_eq_nil_iff]
    intro u hu
    simp only [Bool.not_eq_true, List.any_eq_false, decide_eq_true_eq]
    rintro r hr ⟨hrid, hrdate⟩
    have hrs := hmem3 r hr
    have huf : u ∈ fetch_todays_reminders s today := by
      refine List.mem_filter.mpr ⟨hsub u hu, ?_⟩
      rw [List.any_eq_true]
      exact ⟨r, hrs.1, by simp [hrid, hrdate]⟩
    exact hrs.2.1 u huf ⟨hrid, hrdate⟩
  have h3 : fetch_past_due_reminders (reminder_cycle s today sendOk).2 today = [] := by
    unfold fetch_past_due_reminders
    rw [List.filter_eq_nil_iff]
    intro u hu
    simp only [Bool.not_eq_true, List.any_eq_false, decide_eq_true_eq]
    rintro r hr ⟨hrid, hrdate⟩
    have hrs := hmem3 r hr
    have huf : u ∈ fetch_past_due_reminders s today := by
      refine List.mem_filter.mpr ⟨hsub u hu, ?_⟩
      rw [List.any_eq_true]
      exact ⟨r, hrs.1, by simp [hrid, hrdate]⟩
    exact hrs.2.2 u huf ⟨hrid, hrdate⟩
  refine ⟨h1, h2, h3, ?_⟩
  conv_lhs => rw [reminder_cycle]
  rw [h1, h2, h3]
  rfl

theorem reminder_cycle_idempotent_witness :
    fetch_todays_reminders
      (reminder_cycle ⟨[⟨1, "u", "A", -1⟩, ⟨2, "u", "B", 5⟩], [⟨2, 0⟩, ⟨2, -2⟩], 3⟩ 0
        (fun _ => true)).2 0 = [] ∧
    fetch_past_due_tasks
      (reminder_cycle ⟨[⟨1, "u", "A", -1⟩, ⟨2, "u", "B", 5⟩], [⟨2, 0⟩, ⟨2, -2⟩], 3⟩ 0
        (fun _ => true)).2 0 = [] ∧
    fetch_past_due_reminders
      (reminder_cycle ⟨[⟨1, "u", "A", -1⟩, ⟨2, "u", "B", 5⟩], [⟨2, 0⟩, ⟨2, -2⟩], 3⟩ 0
        (fun _ => true)).2 0 = [] ∧
    reminder_cycle
      (reminder_cycle ⟨[⟨1, "u", "A", -1⟩, ⟨2, "u", "B", 5⟩], [⟨2, 0⟩, ⟨2, -2⟩], 3⟩ 0
        (fun _ => true)).2 0 (fun _ => true) =
      (([], []),
        (reminder_cycle ⟨[⟨1, "u", "A", -1⟩, ⟨2, "u", "B", 5⟩], [⟨2, 0⟩, ⟨2, -2⟩], 3⟩ 0
          (fun _ => true)).2) :=
  reminder_cycle_idempotent ⟨[⟨1, "u", "A", -1⟩, ⟨2, "u", "B", 5⟩], [⟨2, 0⟩, ⟨2, -2⟩], 3⟩ 0
    (fun _ => true) (fun _ => true)

end Scheduler
